import Mathlib

/-!
Verification development for `johnzheng1975/istio`

Three parts:

* `Galley`  – `galley/cmd/gals/cmd/init.go` (`initCmd`, `initCrds`);
* `Policy`  – `tests/integration/telemetry/policy/envoy_ratelimit_test.go`
  (`testSetup`, the check closure of `sendTrafficAndCheckIfRatelimited`);
* `RateLimit` – the rate-limit decision engine that the integration tests
  exercise.  Its implementation is not part of the source tree, so it is
  modelled from the specification.

Go functions with side effects are embedded by explicit state passing: the
outside world is a value of an arbitrary type `W`, every external call takes
the current world and returns its Go results together with the next world.
Statements about which external functions are invoked, and in which order,
are made for environments that record their own invocations in the world
(`InitRecords`, `SetupRecords`): the record is written by the environment,
so it shows what the embedded function really called.
-/

set_option autoImplicit false

/-- Go `error` values that are not `nil`. -/
structure GoError where
  msg : String
  deriving DecidableEq, Repr

/-- Go value of type `error`: `none` is `nil`. -/
abbrev GoErr := Option GoError

namespace Galley

/-- The two fields of `rootArgs` that `initCrds` reads.  The type of the
logging options is declared outside the source tree and is a parameter. -/
structure RootArgs (Opts : Type) where
  loggingOptions : Opts
  kubeconfigPath : String

/-- The external functions called by `init.go`.  `fatalf` is the
`shared.FormatFn` argument of `initCmd`; its variadic arguments are a list. -/
structure InitEnv (W Opts Ctrl : Type) where
  logConfigure : Opts → W → GoErr × W
  newController : String → W → (Ctrl × GoErr) × W
  copyCRDs : Ctrl → W → GoErr × W
  fatalf : String → List GoError → W → W

/-- Result of running a function of `init.go`: the returned `error` and the
world afterwards. -/
structure InitRun (W : Type) where
  err : GoErr
  world : W

/-- `func initCrds(rootArgs *rootArgs) (err error)`. -/
def initCrds {W Opts Ctrl : Type} (env : InitEnv W Opts Ctrl)
    (rootArgs : RootArgs Opts) (w0 : W) : InitRun W :=
  -- if err = log.Configure(rootArgs.loggingOptions); err != nil { return }
  let r1 := env.logConfigure rootArgs.loggingOptions w0
  let err := r1.1
  if err ≠ none then
    ⟨err, r1.2⟩
  else
    -- if controller, err = sync.NewController(rootArgs.kubeconfigPath); err != nil { return }
    let r2 := env.newController rootArgs.kubeconfigPath r1.2
    let controller := r2.1.1
    let err := r2.1.2
    if err ≠ none then
      ⟨err, r2.2⟩
    else
      -- return controller.CopyCRDs()
      let r3 := env.copyCRDs controller r2.2
      ⟨r3.1, r3.2⟩

/-- The `Run` closure of the command returned by `initCmd`; the two
arguments `cmd` and `args` of the closure are not used by its body. -/
def initCmdRun {W Opts Ctrl : Type} (env : InitEnv W Opts Ctrl)
    (rootArgs : RootArgs Opts) (w0 : W) : InitRun W :=
  -- err := initCrds(rootArgs)
  let r := initCrds env rootArgs w0
  -- if err != nil { fatalf("%v", err) }
  match r.err with
  | some e => ⟨some e, env.fatalf "%v" [e] r.world⟩
  | none => ⟨none, r.world⟩

/-- The outcome of the three steps of `initCrds` as they would run from
world `w0`: each step is run in the world left by the previous one. -/
def stepErrors {W Opts Ctrl : Type} (env : InitEnv W Opts Ctrl)
    (rootArgs : RootArgs Opts) (w0 : W) : GoErr × GoErr × GoErr :=
  let r1 := env.logConfigure rootArgs.loggingOptions w0
  let r2 := env.newController rootArgs.kubeconfigPath r1.2
  let r3 := env.copyCRDs r2.1.1 r2.2
  (r1.1, r2.1.2, r3.1)

/-- One invocation of an external function of `init.go`, with its
arguments, as an environment can record it. -/
inductive InitCall (Opts Ctrl : Type) where
  | logConfigure (opts : Opts)
  | newController (kubeconfigPath : String)
  | copyCRDs (controller : Ctrl)
  | fatalf (format : String) (args : List GoError)
  deriving DecidableEq, Repr

/-- Is the call an invocation of `controller.CopyCRDs`? -/
def InitCall.isCopyCRDs {Opts Ctrl : Type} : InitCall Opts Ctrl → Bool
  | .copyCRDs _ => true
  | _ => false

/-- Is the call an invocation of `sync.NewController`? -/
def InitCall.isNewController {Opts Ctrl : Type} : InitCall Opts Ctrl → Bool
  | .newController _ => true
  | _ => false

/-- Is the call an invocation of `fatalf`? -/
def InitCall.isFatalf {Opts Ctrl : Type} : InitCall Opts Ctrl → Bool
  | .fatalf _ _ => true
  | _ => false

/-- The environment `env` keeps a record of its invocations that can be read
off the world with `log`: every invocation of one of its four functions
appends exactly that invocation to the record.  The record is written by the
environment; the embedded functions cannot touch it except by calling. -/
structure InitRecords {W Opts Ctrl : Type} (env : InitEnv W Opts Ctrl)
    (log : W → List (InitCall Opts Ctrl)) : Prop where
  logConfigure : ∀ opts w,
    log (env.logConfigure opts w).2 = log w ++ [InitCall.logConfigure opts]
  newController : ∀ path w,
    log (env.newController path w).2 = log w ++ [InitCall.newController path]
  copyCRDs : ∀ ctrl w,
    log (env.copyCRDs ctrl w).2 = log w ++ [InitCall.copyCRDs ctrl]
  fatalf : ∀ format args w,
    log (env.fatalf format args w) = log w ++ [InitCall.fatalf format args]

/-- A concrete environment over the world `Unit`, given by the three step
results; `fatalf` returns. -/
def constEnv (e1 e2 e3 : GoErr) : InitEnv Unit Unit Nat where
  logConfigure := fun _ w => (e1, w)
  newController := fun _ w => ((7, e2), w)
  copyCRDs := fun _ w => (e3, w)
  fatalf := fun _ _ w => w

/-- Concrete arguments for `constEnv`. -/
def sampleArgs : RootArgs Unit := ⟨(), "/home/user/.kube/config"⟩

/-- A concrete environment whose world is the record of its invocations,
with the three step results given; `fatalf` returns. -/
def recordingEnv (e1 e2 e3 : GoErr) : InitEnv (List (InitCall Unit Nat)) Unit Nat where
  logConfigure := fun opts w => (e1, w ++ [.logConfigure opts])
  newController := fun path w => ((7, e2), w ++ [.newController path])
  copyCRDs := fun ctrl w => (e3, w ++ [.copyCRDs ctrl])
  fatalf := fun format args w => w ++ [.fatalf format args]

end Galley

namespace Policy

/-- `response.ParsedResponse`; the check only reads the field `Code`. -/
structure ParsedResponse where
  Code : String
  Body : String
  deriving DecidableEq, Repr

/-- `echo.CallOptions` as filled in by the check closure. -/
structure CallOptions (Inst : Type) where
  Target : Inst
  PortName : String
  Count : Nat

/-- `namespace.Config` as filled in by `testSetup`. -/
structure NamespaceConfig where
  Prefix : String
  Inject : Bool
  deriving DecidableEq, Repr

/-- `echo.Port` as filled in by `testSetup`. -/
structure EchoPort where
  Name : String
  Protocol : String
  InstancePort : Nat
  deriving DecidableEq, Repr

/-- `echo.Config` as filled in by `testSetup`. -/
structure EchoConfig (Ns : Type) where
  Service : String
  Namespace : Ns
  Ports : List EchoPort
  deriving DecidableEq, Repr

/-- The package-level variables of the test file written by `testSetup`
(`ist` is only read). -/
structure Globals (Ns Inst Ing : Type) where
  echoNsInst : Ns
  ratelimitNs : Ns
  ing : Ing
  srv : Inst
  clt : Inst

/-- The external functions and constants used by the test file.
`echoBuild` stands for the chain `echoboot.NewBuilder(ctx).With(&clt, ..).
With(&srv, ..).Build()`: it returns what the chain leaves in `clt` and in
`srv`, and the error of `Build`.  `readFile` returns the file content already
converted by `string(..)`.  `statusCodeTooManyRequests` is the constant
`response.StatusCodeTooManyRequests`, `istioSrc` is `env.IstioSrc`. -/
structure TestEnv (W Ns Inst Ing Cluster Fetch : Type) where
  namespaceNew : NamespaceConfig → W → (Ns × GoErr) × W
  nsName : Ns → String
  echoBuild : EchoConfig Ns → EchoConfig Ns → W → (Inst × Inst × GoErr) × W
  defaultCluster : Cluster
  ingressFor : Cluster → W → Ing × W
  readFile : String → W → (String × GoErr) × W
  applyYAML : String → String → W → GoErr × W
  istioSrc : String
  filepathJoin : String → String → String
  newPodFetch : Cluster → String → String → Fetch
  waitUntilPodsAreReady : Fetch → W → GoErr × W
  logf : String → W → W
  call : Inst → CallOptions Inst → W → (List ParsedResponse × GoErr) × W
  statusCodeTooManyRequests : String

/-- Result of `testSetup`: returned error, the package-level variables and
the world afterwards. -/
structure SetupRun (W Ns Inst Ing : Type) where
  err : GoErr
  globals : Globals Ns Inst Ing
  world : W

/-- `func testSetup(ctx resource.Context) (err error)`.  The function has the
named result `err`; a bare `return` returns its current value.  The two short
variable declarations `yamlContentCM, err := ..` and `yamlContent, err := ..`
stand in the function's outermost block, where `err` is already declared (the
result parameters belong to that block), so they assign to the named result
and only declare the new left-hand variable. -/
def testSetup {W Ns Inst Ing Cluster Fetch : Type}
    (env : TestEnv W Ns Inst Ing Cluster Fetch)
    (g0 : Globals Ns Inst Ing) (w0 : W) : SetupRun W Ns Inst Ing :=
  -- echoNsInst, err = namespace.New(ctx, namespace.Config{Prefix: "istio-echo", Inject: true})
  let r1 := env.namespaceNew ⟨"istio-echo", true⟩ w0
  let g1 := { g0 with echoNsInst := r1.1.1 }
  let err := r1.1.2
  if err ≠ none then ⟨err, g1, r1.2⟩ else
  -- _, err = echoboot.NewBuilder(ctx).With(&clt, ..).With(&srv, ..).Build()
  let r2 := env.echoBuild ⟨"clt", g1.echoNsInst, []⟩
    ⟨"srv", g1.echoNsInst, [⟨"http", "HTTP", 8888⟩]⟩ r1.2
  let g2 := { g1 with clt := r2.1.1, srv := r2.1.2.1 }
  let err := r2.1.2.2
  if err ≠ none then ⟨err, g2, r2.2⟩ else
  -- ing = ist.IngressFor(ctx.Clusters().Default())
  let r3 := env.ingressFor env.defaultCluster r2.2
  let g3 := { g2 with ing := r3.1 }
  -- ratelimitNs, err = namespace.New(ctx, namespace.Config{Prefix: "istio-ratelimit"})
  let r4 := env.namespaceNew ⟨"istio-ratelimit", false⟩ r3.2
  let g4 := { g3 with ratelimitNs := r4.1.1 }
  let err := r4.1.2
  if err ≠ none then ⟨err, g4, r4.2⟩ else
  -- yamlContentCM, err := ioutil.ReadFile("testdata/rate-limit-configmap.yaml")
  let r5 := env.readFile "testdata/rate-limit-configmap.yaml" r4.2
  let yamlContentCM := r5.1.1
  let err := r5.1.2
  if err ≠ none then ⟨err, g4, r5.2⟩ else
  -- err = ctx.Config().ApplyYAML(ratelimitNs.Name(), string(yamlContentCM))
  let r6 := env.applyYAML (env.nsName g4.ratelimitNs) yamlContentCM r5.2
  let err := r6.1
  if err ≠ none then ⟨err, g4, r6.2⟩ else
  -- yamlContent, err := ioutil.ReadFile(filepath.Join(env.IstioSrc, "samples/ratelimit/ratelimit.yaml"))
  let path := env.filepathJoin env.istioSrc "samples/ratelimit/ratelimit.yaml"
  let r7 := env.readFile path r6.2
  let yamlContent := r7.1.1
  let err := r7.1.2
  if err ≠ none then ⟨err, g4, r7.2⟩ else
  -- err = ctx.Config().ApplyYAML(ratelimitNs.Name(), string(yamlContent))
  let r8 := env.applyYAML (env.nsName g4.ratelimitNs) yamlContent r7.2
  let err := r8.1
  if err ≠ none then ⟨err, g4, r8.2⟩ else
  -- fetchFn := kube.NewPodFetch(ctx.Clusters().Default(), ratelimitNs.Name(), "app=redis")
  let fetchFn := env.newPodFetch env.defaultCluster (env.nsName g4.ratelimitNs) "app=redis"
  -- if _, err = kube.WaitUntilPodsAreReady(fetchFn); err != nil { return }
  let r9 := env.waitUntilPodsAreReady fetchFn r8.2
  let err := r9.1
  if err ≠ none then ⟨err, g4, r9.2⟩ else
  -- fetchFn = kube.NewPodFetch(ctx.Clusters().Default(), ratelimitNs.Name(), "app=ratelimit")
  let fetchFn := env.newPodFetch env.defaultCluster (env.nsName g4.ratelimitNs) "app=ratelimit"
  -- if _, err = kube.WaitUntilPodsAreReady(fetchFn); err != nil { return }
  let r10 := env.waitUntilPodsAreReady fetchFn r9.2
  let err := r10.1
  if err ≠ none then ⟨err, g4, r10.2⟩ else
  -- return nil
  ⟨none, g4, r10.2⟩

/-- One invocation of an external function used by `testSetup`, with its
arguments and the error it returned, as an environment can record it
(`ist.IngressFor` returns no error). -/
inductive SetupCall (Ns Fetch : Type) where
  | namespaceNew (cfg : NamespaceConfig) (err : GoErr)
  | echoBuild (cltConfig srvConfig : EchoConfig Ns) (err : GoErr)
  | ingressFor
  | readFile (path : String) (err : GoErr)
  | applyYAML (ns : String) (yamlText : String) (err : GoErr)
  | waitUntilPodsAreReady (fetchFn : Fetch) (err : GoErr)
  deriving DecidableEq, Repr

/-- The error returned by a recorded invocation. -/
def SetupCall.err {Ns Fetch : Type} : SetupCall Ns Fetch → GoErr
  | .namespaceNew _ e => e
  | .echoBuild _ _ e => e
  | .ingressFor => none
  | .readFile _ e => e
  | .applyYAML _ _ e => e
  | .waitUntilPodsAreReady _ e => e

/-- The environment `env` keeps a record of its invocations that can be read
off the world with `log`: every invocation of one of the six functions that
`testSetup` uses appends exactly that invocation, with the error it returns,
to the record.  The record is written by the environment. -/
structure SetupRecords {W Ns Inst Ing Cluster Fetch : Type}
    (env : TestEnv W Ns Inst Ing Cluster Fetch)
    (log : W → List (SetupCall Ns Fetch)) : Prop where
  namespaceNew : ∀ cfg w,
    log (env.namespaceNew cfg w).2
      = log w ++ [SetupCall.namespaceNew cfg (env.namespaceNew cfg w).1.2]
  echoBuild : ∀ c s w,
    log (env.echoBuild c s w).2
      = log w ++ [SetupCall.echoBuild c s (env.echoBuild c s w).1.2.2]
  ingressFor : ∀ cluster w,
    log (env.ingressFor cluster w).2 = log w ++ [SetupCall.ingressFor]
  readFile : ∀ path w,
    log (env.readFile path w).2
      = log w ++ [SetupCall.readFile path (env.readFile path w).1.2]
  applyYAML : ∀ ns text w,
    log (env.applyYAML ns text w).2
      = log w ++ [SetupCall.applyYAML ns text (env.applyYAML ns text w).1]
  waitUntilPodsAreReady : ∀ f w,
    log (env.waitUntilPodsAreReady f w).2
      = log w ++ [SetupCall.waitUntilPodsAreReady f (env.waitUntilPodsAreReady f w).1]

/-- The ten external steps of `testSetup` in source order, as they would run
from world `w0` if none stopped the function: each step is run in the world
left by the previous one, on the values the previous ones returned, and is
listed with the error it returns. -/
def setupSteps {W Ns Inst Ing Cluster Fetch : Type}
    (env : TestEnv W Ns Inst Ing Cluster Fetch) (w0 : W) : List (SetupCall Ns Fetch) :=
  let r1 := env.namespaceNew ⟨"istio-echo", true⟩ w0
  let r2 := env.echoBuild ⟨"clt", r1.1.1, []⟩ ⟨"srv", r1.1.1, [⟨"http", "HTTP", 8888⟩]⟩ r1.2
  let r3 := env.ingressFor env.defaultCluster r2.2
  let r4 := env.namespaceNew ⟨"istio-ratelimit", false⟩ r3.2
  let ns := env.nsName r4.1.1
  let r5 := env.readFile "testdata/rate-limit-configmap.yaml" r4.2
  let r6 := env.applyYAML ns r5.1.1 r5.2
  let path := env.filepathJoin env.istioSrc "samples/ratelimit/ratelimit.yaml"
  let r7 := env.readFile path r6.2
  let r8 := env.applyYAML ns r7.1.1 r7.2
  let r9 := env.waitUntilPodsAreReady
    (env.newPodFetch env.defaultCluster ns "app=redis") r8.2
  let r10 := env.waitUntilPodsAreReady
    (env.newPodFetch env.defaultCluster ns "app=ratelimit") r9.2
  [.namespaceNew ⟨"istio-echo", true⟩ r1.1.2,
   .echoBuild ⟨"clt", r1.1.1, []⟩ ⟨"srv", r1.1.1, [⟨"http", "HTTP", 8888⟩]⟩ r2.1.2.2,
   .ingressFor,
   .namespaceNew ⟨"istio-ratelimit", false⟩ r4.1.2,
   .readFile "testdata/rate-limit-configmap.yaml" r5.1.2,
   .applyYAML ns r5.1.1 r6.1,
   .readFile path r7.1.2,
   .applyYAML ns r7.1.1 r8.1,
   .waitUntilPodsAreReady (env.newPodFetch env.defaultCluster ns "app=redis") r9.1,
   .waitUntilPodsAreReady (env.newPodFetch env.defaultCluster ns "app=ratelimit") r10.1]

/-- The error of the first step of the list that returned one; `nil` when
none did. -/
def firstError {Ns Fetch : Type} : List (SetupCall Ns Fetch) → GoErr
  | [] => none
  | c :: cs => if c.err ≠ none then c.err else firstError cs

/-- The steps of the list up to and including the first one that returned an
error; the whole list when none did. -/
def throughFirstError {Ns Fetch : Type} : List (SetupCall Ns Fetch) → List (SetupCall Ns Fetch)
  | [] => []
  | c :: cs => if c.err ≠ none then [c] else c :: throughFirstError cs

/-- The loop `for _, resp := range parsedResponse` of the check closure,
started with the current value of `received409`; it stops at the first
response whose `Code` equals `response.StatusCodeTooManyRequests`. -/
def scanResponses (tooManyRequests : String) :
    List ParsedResponse → Bool → Bool
  | [], received409 => received409
  | resp :: rest, received409 =>
    if tooManyRequests = resp.Code then true
    else scanResponses tooManyRequests rest received409

/-- The part of the check closure after `clt.Call(httpOpts)` has returned
`(parsedResponse, err)`: the value the closure returns. -/
def checkCallResult (tooManyRequests : String)
    (parsedResponse : List ParsedResponse) (err : GoErr) : GoErr :=
  -- received409 := false
  let received409 := false
  -- if parsedResponse, err := clt.Call(httpOpts); err == nil { for .. }
  let received409 :=
    if err = none then scanResponses tooManyRequests parsedResponse received409
    else received409
  -- if !received409 { return errors.New(..) }; return nil
  if !received409 then some ⟨"no request received StatusTooManyRequest error"⟩
  else none

/-- The closure that `sendTrafficAndCheckIfRatelimited` passes to
`retry.UntilSuccessOrFail`: it logs, calls `clt.Call` with `Target: srv`,
`PortName: "http"`, `Count: 5`, and evaluates the result. -/
def checkClosure {W Ns Inst Ing Cluster Fetch : Type}
    (env : TestEnv W Ns Inst Ing Cluster Fetch)
    (g : Globals Ns Inst Ing) (w0 : W) : GoErr × W :=
  let w1 := env.logf "Sending 5 requests..." w0
  let r := env.call g.clt ⟨g.srv, "http", 5⟩ w1
  (checkCallResult env.statusCodeTooManyRequests r.1.1 r.1.2, r.2)

/-- A concrete environment whose world is the record of its invocations.
The invocation made when the record holds `failAt` entries fails, with an
error naming it; file contents and names are fixed strings. -/
def recordingEnv (failAt : Nat) (responses : List ParsedResponse) (callErr : GoErr) :
    TestEnv (List (SetupCall Nat (String × String))) Nat Nat Nat Unit (String × String) where
  namespaceNew := fun cfg w =>
    ((cfg.Prefix.length, if w.length = failAt then some ⟨"namespace"⟩ else none),
      w ++ [.namespaceNew cfg (if w.length = failAt then some ⟨"namespace"⟩ else none)])
  nsName := fun n => if n = 10 then "istio-echo-1" else "istio-ratelimit-1"
  echoBuild := fun c s w =>
    ((1, 2, if w.length = failAt then some ⟨"build"⟩ else none),
      w ++ [.echoBuild c s (if w.length = failAt then some ⟨"build"⟩ else none)])
  defaultCluster := ()
  ingressFor := fun _ w => (3, w ++ [.ingressFor])
  readFile := fun path w =>
    ((if w.length = failAt then "" else "content of " ++ path,
      if w.length = failAt then some ⟨"open " ++ path⟩ else none),
      w ++ [.readFile path (if w.length = failAt then some ⟨"open " ++ path⟩ else none)])
  applyYAML := fun ns text w =>
    (if w.length = failAt then some ⟨"apply"⟩ else none,
      w ++ [.applyYAML ns text (if w.length = failAt then some ⟨"apply"⟩ else none)])
  istioSrc := "/go/src/istio.io/istio"
  filepathJoin := fun a b => a ++ "/" ++ b
  newPodFetch := fun _ ns sel => (ns, sel)
  waitUntilPodsAreReady := fun f w =>
    (if w.length = failAt then some ⟨"not ready: " ++ f.2⟩ else none,
      w ++ [.waitUntilPodsAreReady f
        (if w.length = failAt then some ⟨"not ready: " ++ f.2⟩ else none)])
  logf := fun _ w => w
  call := fun _ _ w => ((responses, callErr), w)
  statusCodeTooManyRequests := "429"

/-- Initial package-level variables for `recordingEnv`. -/
def zeroGlobals : Globals Nat Nat Nat := ⟨0, 0, 0, 0, 0⟩

end Policy

namespace RateLimit

/-! ## The rate-limit decision engine

The engine exercised by the integration tests runs inside the proxy and has
no source file in the tree.  Every definition of this namespace is modelled
from the specification; time and token counts are exact rationals. -/

/-- Modelled from the spec: the `scope` attribute of a rule (§3); the engine
is missing from the source tree.  A route override names its route. -/
inductive Scope where
  | vhostDefault
  | routeOverride (route : String)
  deriving DecidableEq, Repr

/-- Modelled from the spec: the `strategy` attribute of a rule (§3), `local`
or `global`; the engine is missing from the source tree. -/
inductive Strategy where
  | localStrategy
  | globalStrategy
  deriving DecidableEq, Repr

/-- Modelled from the spec: a key template of a descriptor template (§3):
remote address, route name, or a custom header stored under a descriptor
key; the engine is missing from the source tree. -/
inductive KeyTemplate where
  | remoteAddress
  | routeName
  | header (headerName : String) (descriptorKey : String)
  deriving DecidableEq, Repr

/-- Modelled from the spec: the `limit` attribute of a rule (§3): count,
window duration in seconds, optional burst; the engine is missing from the
source tree. -/
structure Limit where
  count : Nat
  window : ℚ
  burst : Option ℚ
  deriving DecidableEq, Repr

/-- Modelled from the spec: `action-on-failure` (§3, §4.3); the engine is
missing from the source tree. -/
inductive FailureAction where
  | allow
  | deny
  deriving DecidableEq, Repr

/-- Modelled from the spec: a rule of a policy (§3); the engine is missing
from the source tree. -/
structure Rule where
  scope : Scope
  strategy : Strategy
  template : List KeyTemplate
  limit : Limit
  actionOnFailure : FailureAction
  deriving DecidableEq, Repr

/-- Modelled from the spec: a policy is an ordered set of rules (§3), with
the header-name matching mode of §4.1; the engine is missing from the source
tree. -/
structure Policy where
  rules : List Rule
  caseInsensitiveHeaders : Bool
  deriving DecidableEq, Repr

/-- Modelled from the spec: the request attributes read by the matcher
(§4.1); the engine is missing from the source tree. -/
structure Request where
  method : String
  path : String
  headers : List (String × String)
  remoteAddress : String
  routeId : String
  deriving DecidableEq, Repr

/-- Modelled from the spec: a descriptor is an ordered mapping from key to
value (§3); the engine is missing from the source tree. -/
abbrev Descriptor := List (String × String)

/-- Modelled from the spec: the three verdict kinds (§3); the engine is
missing from the source tree. -/
inductive VerdictKind where
  | ADMIT
  | DENY
  | ERROR
  deriving DecidableEq, Repr

/-- Modelled from the spec: a verdict with its optional retry-after hint and
the rule that produced it (§3); the engine is missing from the source tree. -/
structure Verdict where
  kind : VerdictKind
  retryAfter : Option ℚ
  rule : Option Rule
  deriving DecidableEq, Repr

/-! ### Descriptor Matcher (§4.1) -/

/-- Modelled from the spec: header lookup of the Descriptor Matcher, which is
missing from the source tree: case-sensitive on header names unless
configured otherwise; an absent header resolves to the empty string. -/
def lookupHeader (caseInsensitive : Bool) (headers : List (String × String))
    (name : String) : String :=
  match headers.find? (fun h =>
      if caseInsensitive then h.1.toLower == name.toLower else h.1 == name) with
  | some h => h.2
  | none => ""

/-- Modelled from the spec: resolution of one key template against a request
(Descriptor Matcher, missing from the source tree). -/
def resolveKey (caseInsensitive : Bool) (req : Request) : KeyTemplate → String × String
  | .remoteAddress => ("remote_address", req.remoteAddress)
  | .routeName => ("route", req.routeId)
  | .header headerName descriptorKey =>
    (descriptorKey, lookupHeader caseInsensitive req.headers headerName)

/-- Modelled from the spec: resolution of a descriptor template (Descriptor
Matcher, missing from the source tree). -/
def resolveDescriptor (caseInsensitive : Bool) (req : Request)
    (template : List KeyTemplate) : Descriptor :=
  template.map (resolveKey caseInsensitive req)

/-- Modelled from the spec: the route-override rules of the request's matched
route (first level of the lookup of the Descriptor Matcher, missing from the
source tree). -/
def overrideRules (policy : Policy) (req : Request) : List Rule :=
  policy.rules.filter (fun r => r.scope = Scope.routeOverride req.routeId)

/-- Modelled from the spec: the vhost-default rules (second level of the
lookup of the Descriptor Matcher, missing from the source tree). -/
def defaultRules (policy : Policy) : List Rule :=
  policy.rules.filter (fun r => r.scope = Scope.vhostDefault)

/-- Modelled from the spec: "explicit two-level lookup with total shadowing"
(§9, §4.1) of the Descriptor Matcher, missing from the source tree: when the
matched route has override rules, only they are candidates; otherwise the
vhost defaults are. -/
def candidateRules (policy : Policy) (req : Request) : List Rule :=
  match overrideRules policy req with
  | [] => defaultRules policy
  | r :: rs => r :: rs

/-- Modelled from the spec: "at most one rule of a given strategy applies"
(§4.1) in the Descriptor Matcher, missing from the source tree: walking the
candidates in order, a rule is kept when no rule of its strategy was kept
before. -/
def firstPerStrategy : List Rule → Bool → Bool → List Rule
  | [], _, _ => []
  | r :: rs, seenLocal, seenGlobal =>
    match r.strategy with
    | .localStrategy =>
      if seenLocal then firstPerStrategy rs seenLocal seenGlobal
      else r :: firstPerStrategy rs true seenGlobal
    | .globalStrategy =>
      if seenGlobal then firstPerStrategy rs seenLocal seenGlobal
      else r :: firstPerStrategy rs seenLocal true

/-- Modelled from the spec: one `(strategy, descriptor)` pair of the matcher
output together with the rule it is derived from (Descriptor Matcher, missing
from the source tree). -/
structure Candidate where
  strategy : Strategy
  descriptor : Descriptor
  rule : Rule
  deriving DecidableEq, Repr

/-- Modelled from the spec: the Descriptor Matcher (§4.1), missing from the
source tree: (request attributes, policy) to the ordered list of pairs to
evaluate; empty when no rule matches. -/
def matcher (policy : Policy) (req : Request) : List Candidate :=
  (firstPerStrategy (candidateRules policy req) false false).map fun r =>
    ⟨r.strategy, resolveDescriptor policy.caseInsensitiveHeaders req r.template, r⟩

/-! ### Local Bucket Engine (§4.2) -/

/-- Modelled from the spec: a local token bucket (§3); the Local Bucket
Engine is missing from the source tree. -/
structure Bucket where
  capacity : ℚ
  tokens : ℚ
  refillRate : ℚ
  lastRefill : ℚ
  deriving DecidableEq, Repr

/-- Modelled from the spec: a fresh bucket starts full (§3); the Local Bucket
Engine is missing from the source tree. -/
def Bucket.fresh (capacity refillRate now : ℚ) : Bucket :=
  ⟨capacity, capacity, refillRate, now⟩

/-- Modelled from the spec: capacity defaults to the limit count unless a
burst is configured; the refill rate is limit/window (§3, §4.2); the Local
Bucket Engine is missing from the source tree. -/
def Bucket.ofLimit (limit : Limit) (now : ℚ) : Bucket :=
  Bucket.fresh (limit.burst.getD limit.count) (limit.count / limit.window) now

/-- Modelled from the spec: the token-bucket step of `check` (§4.2), missing
from the source tree: add `elapsed × refill rate` tokens capped at capacity;
with at least one token subtract 1 and ADMIT, otherwise DENY with
`retry-after = (1 - tokens) / refill rate`. -/
def Bucket.check (b : Bucket) (now : ℚ) : Verdict × Bucket :=
  let elapsed := now - b.lastRefill
  let tokens := min b.capacity (b.tokens + elapsed * b.refillRate)
  if 1 ≤ tokens then
    (⟨.ADMIT, none, none⟩, { b with tokens := tokens - 1, lastRefill := now })
  else
    (⟨.DENY, some ((1 - tokens) / b.refillRate), none⟩,
      { b with tokens := tokens, lastRefill := now })

/-- Modelled from the spec: `n` successive checks against one bucket, all at
the same instant `now` (no elapsed time); the Local Bucket Engine is missing
from the source tree. -/
def Bucket.checkRepeated (b : Bucket) (now : ℚ) : Nat → List Verdict
  | 0 => []
  | n + 1 => (b.check now).1 :: Bucket.checkRepeated (b.check now).2 now n

/-- Modelled from the spec: the buckets of the Local Bucket Engine (§3),
missing from the source tree: keyed by descriptor, most recently used first,
with the configured cap on distinct descriptors. -/
structure LocalEngine where
  maxDescriptors : Nat
  buckets : List (Descriptor × Bucket)
  deriving DecidableEq, Repr

/-- Modelled from the spec: `check(descriptor, limit)` of the Local Bucket
Engine (§4.2, §3), missing from the source tree: the bucket is created
lazily, full, on first observation of the descriptor; when that reaches the
cap the least recently used buckets are evicted. -/
def LocalEngine.check (e : LocalEngine) (d : Descriptor) (limit : Limit) (now : ℚ) :
    Verdict × LocalEngine :=
  let others := e.buckets.filter (fun p => p.1 ≠ d)
  match e.buckets.lookup d with
  | some b =>
    let r := b.check now
    (r.1, { e with buckets := (d, r.2) :: others })
  | none =>
    let r := (Bucket.ofLimit limit now).check now
    (r.1, { e with buckets := (d, r.2) :: others.take (e.maxDescriptors - 1) })

/-! ### Global Limit Client (§4.3, §6) -/

/-- Modelled from the spec: per-descriptor verdict of the Shared Counter
Service (§6); the Global Limit Client is missing from the source tree. -/
inductive Code where
  | OK
  | OVER_LIMIT
  deriving DecidableEq, Repr

/-- Modelled from the spec: what comes back on the wire for one request to
the Shared Counter Service (§6): no connection, an unreadable payload, or one
code per descriptor set; the Global Limit Client is missing from the source
tree.  The optional count and reset-time metadata is not interpreted by any
rule of the spec and is left out. -/
inductive WireReply where
  | connectionFailure
  | unreadable
  | codes (cs : List Code)
  deriving DecidableEq, Repr

/-- Modelled from the spec: one round trip to the Shared Counter Service:
how long it takes (milliseconds) and what comes back; the Global Limit Client
is missing from the source tree. -/
structure RoundTrip where
  latency : Nat
  reply : WireReply
  deriving DecidableEq, Repr

/-- Modelled from the spec: the Shared Counter Service as seen by one
request, an external collaborator (§6): attempt number and batch to round
trip. -/
abbrev CounterService := Nat → List Descriptor → RoundTrip

/-- Modelled from the spec: the transport failures of §4.3 and §6; the Global
Limit Client is missing from the source tree. -/
inductive Failure where
  | timeout
  | connectionFailure
  | malformed
  deriving DecidableEq, Repr

/-- Modelled from the spec: result of one call of the Global Limit Client
(missing from the source tree): a definitive response or a failure. -/
inductive CallResult where
  | response (cs : List Code)
  | failure (f : Failure)
  deriving DecidableEq, Repr

/-- Modelled from the spec: one attempt of the Global Limit Client (missing
from the source tree) under a timeout: a round trip longer than the timeout
is a timeout and uses up the whole timeout; a payload that is unreadable or
does not carry one code per descriptor set of the batch is malformed (§6).
Returns the result and the time used. -/
def attempt (svc : CounterService) (n : Nat) (batch : List Descriptor) (timeout : Nat) :
    CallResult × Nat :=
  let rt := svc n batch
  if timeout < rt.latency then (.failure .timeout, timeout)
  else
    match rt.reply with
    | .connectionFailure => (.failure .connectionFailure, rt.latency)
    | .unreadable => (.failure .malformed, rt.latency)
    | .codes cs =>
      if cs.length = batch.length then (.response cs, rt.latency)
      else (.failure .malformed, rt.latency)

/-- Modelled from the spec: the call of the Global Limit Client with its
retry rule (§4.3), missing from the source tree: after a failure there is at
most one retry, with the remainder of the timeout, only when that remainder
is strictly shorter than the timeout and not exhausted. -/
def callService (svc : CounterService) (batch : List Descriptor) (timeout : Nat) :
    CallResult :=
  let first := attempt svc 0 batch timeout
  match first.1 with
  | .response cs => .response cs
  | .failure f =>
    let remainder := timeout - first.2
    if 0 < remainder ∧ remainder < timeout then (attempt svc 1 batch remainder).1
    else .failure f

/-- Modelled from the spec: interpretation of a call result by the Global
Limit Client (§4.3), missing from the source tree: OVER_LIMIT for any
descriptor is DENY, OK for all is ADMIT, a failure is ERROR. -/
def verdictOfCall : CallResult → Verdict
  | .response cs =>
    if cs.any (fun c => c = Code.OVER_LIMIT) then ⟨.DENY, none, none⟩
    else ⟨.ADMIT, none, none⟩
  | .failure _ => ⟨.ERROR, none, none⟩

/-- Modelled from the spec: `check(descriptors)` of the Global Limit Client
(§4.3), missing from the source tree. -/
def globalCheck (svc : CounterService) (batch : List Descriptor) (timeout : Nat) : Verdict :=
  verdictOfCall (callService svc batch timeout)

/-- Modelled from the spec: the caller applies the rule's `action-on-failure`
to an ERROR verdict (§4.3): `allow` gives ADMIT, `deny` gives DENY; other
verdicts are unchanged.  The engine is missing from the source tree. -/
def applyFailurePolicy (action : FailureAction) (v : Verdict) : Verdict :=
  match v.kind with
  | .ERROR =>
    match action with
    | .allow => { v with kind := .ADMIT }
    | .deny => { v with kind := .DENY }
  | _ => v

/-! ### Decision Merger (§4.4) and the engine -/

/-- Modelled from the spec: the final outcome of a request (§4.4): verdict,
retry-after hint and the rules that denied; the Decision Merger is missing
from the source tree. -/
structure Outcome where
  kind : VerdictKind
  retryAfter : Option ℚ
  deniedBy : List Rule
  deriving DecidableEq, Repr

/-- Modelled from the spec: the larger of two optional retry-after hints
(§4.4: the maximum among denying verdicts); the Decision Merger is missing
from the source tree. -/
def maxHint : Option ℚ → Option ℚ → Option ℚ
  | none, h => h
  | some a, none => some a
  | some a, some b => some (max a b)

/-- Modelled from the spec: the merger's treatment of one verdict (§4.4),
missing from the source tree: a DENY makes the outcome DENY, raises the
retry-after hint and records the denying rule; any other verdict leaves the
outcome as it is. -/
def mergeStep (o : Outcome) (v : Verdict) : Outcome :=
  match v.kind with
  | .DENY => ⟨.DENY, maxHint o.retryAfter v.retryAfter, o.deniedBy ++ v.rule.toList⟩
  | _ => o

/-- Modelled from the spec: the Decision Merger (§4.4), missing from the
source tree; the outcome for no verdict at all is the default ADMIT. -/
def merge (verdicts : List Verdict) : Outcome :=
  verdicts.foldl mergeStep ⟨.ADMIT, none, []⟩

/-- Modelled from the spec: evaluation of one pair of the matcher output
(§2): a local pair goes to the Local Bucket Engine, a global pair to the
Global Limit Client, whose ERROR is resolved by the rule's action on failure;
the verdict records its rule.  The engine is missing from the source tree. -/
def evalCandidate (svc : CounterService) (timeout : Nat) (now : ℚ)
    (e : LocalEngine) (c : Candidate) : Verdict × LocalEngine :=
  match c.strategy with
  | .localStrategy =>
    let r := e.check c.descriptor c.rule.limit now
    ({ r.1 with rule := some c.rule }, r.2)
  | .globalStrategy =>
    ({ applyFailurePolicy c.rule.actionOnFailure
        (globalCheck svc [c.descriptor] timeout) with rule := some c.rule }, e)

/-- Modelled from the spec: evaluation of all pairs of the matcher output in
order, none skipped (§4.1); the engine is missing from the source tree. -/
def evalAll (svc : CounterService) (timeout : Nat) (now : ℚ) :
    LocalEngine → List Candidate → List Verdict × LocalEngine
  | e, [] => ([], e)
  | e, c :: cs =>
    let r := evalCandidate svc timeout now e c
    let rest := evalAll svc timeout now r.2 cs
    (r.1 :: rest.1, rest.2)

/-- Modelled from the spec: the rate check of one request (§2): matcher,
evaluation of every pair, merger; the engine is missing from the source
tree. -/
def rateCheck (policy : Policy) (svc : CounterService) (timeout : Nat)
    (e : LocalEngine) (now : ℚ) (req : Request) : Outcome × LocalEngine :=
  let r := evalAll svc timeout now e (matcher policy req)
  (merge r.1, r.2)

/-- A service whose first round trip finds no connection after 10 ms and
whose second one answers after 20 ms: OK for the first descriptor set,
OVER_LIMIT for the second. -/
def flakyService : CounterService := fun n _ =>
  if n = 0 then ⟨10, .connectionFailure⟩ else ⟨20, .codes [.OK, .OVER_LIMIT]⟩

/-- A service that answers OVER_LIMIT for the one descriptor set of a batch,
after one second. -/
def lateService : CounterService := fun _ _ => ⟨1000, .codes [.OVER_LIMIT]⟩

/-- A vhost-default local rule: 100 requests per 10 s per remote address. -/
def defaultLocalRule : Rule :=
  ⟨.vhostDefault, .localStrategy, [.remoteAddress], ⟨100, 10, none⟩, .allow⟩

/-- A route-override local rule for route `api`: 5 requests per 10 s. -/
def apiLocalRule : Rule :=
  ⟨.routeOverride "api", .localStrategy, [.routeName], ⟨5, 10, none⟩, .allow⟩

/-- A policy with a vhost default and an override for route `api`. -/
def overridePolicy : Policy := ⟨[defaultLocalRule, apiLocalRule], false⟩

/-- A request whose matched route is `api`. -/
def apiRequest : Request := ⟨"GET", "/api", [("x-user", "bob")], "1.2.3.4", "api"⟩

/-- The pair that the override rule of route `api` gives for `apiRequest`. -/
def apiCandidate : Candidate := ⟨.localStrategy, [("route", "api")], apiLocalRule⟩

/-- A local rule, one request per 10 s per remote address. -/
def oneLocalRule : Rule :=
  ⟨.vhostDefault, .localStrategy, [.remoteAddress], ⟨1, 10, none⟩, .allow⟩

/-- A global rule keyed by route, fail-open. -/
def openGlobalRule : Rule :=
  ⟨.vhostDefault, .globalStrategy, [.routeName], ⟨100, 10, none⟩, .allow⟩

/-- A global rule keyed by route, fail-closed. -/
def closedGlobalRule : Rule :=
  ⟨.vhostDefault, .globalStrategy, [.routeName], ⟨100, 10, none⟩, .deny⟩

/-- A policy with a local rule and a fail-open global rule. -/
def mixedPolicy : Policy := ⟨[oneLocalRule, openGlobalRule], false⟩

/-- A policy with only a fail-closed global rule. -/
def closedPolicy : Policy := ⟨[closedGlobalRule], false⟩

/-- A Shared Counter Service that answers after one second. -/
def slowService : CounterService := fun _ _ => ⟨1000, .codes [.OK]⟩

/-- An engine with no bucket yet and room for 10 descriptors. -/
def emptyEngine : LocalEngine := ⟨10, []⟩

/-- The pair of `closedGlobalRule` for `apiRequest`. -/
def closedCandidate : Candidate := ⟨.globalStrategy, [("route", "api")], closedGlobalRule⟩

end RateLimit

/-! # Theorems -/

namespace Galley

/-- The world of `recordingEnv` is its record. -/
theorem recordingEnv_records (e1 e2 e3 : GoErr) :
    InitRecords (recordingEnv e1 e2 e3) id :=
  ⟨fun _ _ => rfl, fun _ _ => rfl, fun _ _ => rfl, fun _ _ _ => rfl⟩

/-- The invocations recorded by the environment during `initCrds`: always
`log.Configure`; `sync.NewController` when that succeeded; `CopyCRDs`, on the
controller returned, when both succeeded. -/
theorem initCrds_log {W Opts Ctrl : Type} (env : InitEnv W Opts Ctrl)
    (rootArgs : RootArgs Opts) (w0 : W) (log : W → List (InitCall Opts Ctrl))
    (h : InitRecords env log) :
    log (initCrds env rootArgs w0).world = log w0 ++
      (if (stepErrors env rootArgs w0).1 ≠ none then
        [.logConfigure rootArgs.loggingOptions]
      else if (stepErrors env rootArgs w0).2.1 ≠ none then
        [.logConfigure rootArgs.loggingOptions, .newController rootArgs.kubeconfigPath]
      else
        [.logConfigure rootArgs.loggingOptions, .newController rootArgs.kubeconfigPath,
         .copyCRDs (env.newController rootArgs.kubeconfigPath
            (env.logConfigure rootArgs.loggingOptions w0).2).1.1]) := by
  unfold initCrds stepErrors
  by_cases h1 : (env.logConfigure rootArgs.loggingOptions w0).1 = none
  · by_cases h2 : (env.newController rootArgs.kubeconfigPath
        (env.logConfigure rootArgs.loggingOptions w0).2).1.2 = none
    · simp [h1, h2, h.logConfigure, h.newController, h.copyCRDs]
    · simp [h1, h2, h.logConfigure, h.newController]
  · simp [h1, h.logConfigure]

/-- C7 (one-time copy): in every environment that records its invocations, a
single call to `initCrds` adds at most one invocation of
`controller.CopyCRDs` to the record, and exactly one when `log.Configure` and
`sync.NewController` both succeed; when `log.Configure` fails it adds no
invocation of `sync.NewController` and none of `CopyCRDs`, and when
`sync.NewController` fails it adds none of `CopyCRDs`. -/
theorem initCrds_copy_once {W Opts Ctrl : Type} (env : InitEnv W Opts Ctrl)
    (rootArgs : RootArgs Opts) (w0 : W) (log : W → List (InitCall Opts Ctrl))
    (h : InitRecords env log) :
    ((log (initCrds env rootArgs w0).world).countP InitCall.isCopyCRDs
      ≤ (log w0).countP InitCall.isCopyCRDs + 1) ∧
    ((stepErrors env rootArgs w0).1 = none →
      (stepErrors env rootArgs w0).2.1 = none →
      (log (initCrds env rootArgs w0).world).countP InitCall.isCopyCRDs
        = (log w0).countP InitCall.isCopyCRDs + 1) ∧
    ((stepErrors env rootArgs w0).1 ≠ none →
      (log (initCrds env rootArgs w0).world).countP InitCall.isNewController
        = (log w0).countP InitCall.isNewController ∧
      (log (initCrds env rootArgs w0).world).countP InitCall.isCopyCRDs
        = (log w0).countP InitCall.isCopyCRDs) ∧
    ((stepErrors env rootArgs w0).1 = none →
      (stepErrors env rootArgs w0).2.1 ≠ none →
      (log (initCrds env rootArgs w0).world).countP InitCall.isCopyCRDs
        = (log w0).countP InitCall.isCopyCRDs) := by
  rw [initCrds_log env rootArgs w0 log h]
  by_cases h1 : (stepErrors env rootArgs w0).1 = none
  · by_cases h2 : (stepErrors env rootArgs w0).2.1 = none
    · simp [h1, h2, List.countP_append, InitCall.isCopyCRDs, InitCall.isNewController]
    · simp [h1, h2, List.countP_append, InitCall.isCopyCRDs, InitCall.isNewController]
  · simp [h1, List.countP_append, InitCall.isCopyCRDs, InitCall.isNewController]

/-- Witness for C7: both first steps succeed and the environment records one
invocation of `CopyCRDs`. -/
theorem initCrds_copy_once_witness :
    (initCrds (recordingEnv none none (some ⟨"copy failed"⟩)) sampleArgs []).world.countP
      InitCall.isCopyCRDs = 0 + 1 :=
  (initCrds_copy_once (recordingEnv none none (some ⟨"copy failed"⟩)) sampleArgs [] id
    (recordingEnv_records none none (some ⟨"copy failed"⟩))).2.1 rfl rfl

/-- C8: `initCrds` returns the error of the first failing step in the order
`log.Configure`, `sync.NewController`, `controller.CopyCRDs`, and returns
`nil` exactly when all three steps succeed. -/
theorem initCrds_first_error {W Opts Ctrl : Type} (env : InitEnv W Opts Ctrl)
    (rootArgs : RootArgs Opts) (w0 : W) :
    ((stepErrors env rootArgs w0).1 ≠ none →
      (initCrds env rootArgs w0).err = (stepErrors env rootArgs w0).1) ∧
    ((stepErrors env rootArgs w0).1 = none →
      (stepErrors env rootArgs w0).2.1 ≠ none →
      (initCrds env rootArgs w0).err = (stepErrors env rootArgs w0).2.1) ∧
    ((stepErrors env rootArgs w0).1 = none →
      (stepErrors env rootArgs w0).2.1 = none →
      (initCrds env rootArgs w0).err = (stepErrors env rootArgs w0).2.2) ∧
    ((initCrds env rootArgs w0).err = none ↔
      ((stepErrors env rootArgs w0).1 = none ∧
       (stepErrors env rootArgs w0).2.1 = none ∧
       (stepErrors env rootArgs w0).2.2 = none)) := by
  unfold initCrds stepErrors
  by_cases h1 : (env.logConfigure rootArgs.loggingOptions w0).1 = none
  · by_cases h2 : (env.newController rootArgs.kubeconfigPath
        (env.logConfigure rootArgs.loggingOptions w0).2).1.2 = none
    · simp [h1, h2]
    · simp [h1, h2]
  · simp [h1]

/-- Witness for C8: `log.Configure` succeeds, `sync.NewController` fails, and
its error is the one returned although `CopyCRDs` would fail too. -/
theorem initCrds_first_error_witness :
    (initCrds (constEnv none (some ⟨"no kubeconfig"⟩) (some ⟨"copy failed"⟩))
      sampleArgs ()).err = some ⟨"no kubeconfig"⟩ :=
  (initCrds_first_error (constEnv none (some ⟨"no kubeconfig"⟩) (some ⟨"copy failed"⟩))
    sampleArgs ()).2.1 rfl (by decide)

/-- During `initCrds` the environment records no invocation of `fatalf`. -/
theorem initCrds_no_fatalf {W Opts Ctrl : Type} (env : InitEnv W Opts Ctrl)
    (rootArgs : RootArgs Opts) (w0 : W) (log : W → List (InitCall Opts Ctrl))
    (h : InitRecords env log) :
    (log (initCrds env rootArgs w0).world).filter InitCall.isFatalf
      = (log w0).filter InitCall.isFatalf := by
  rw [initCrds_log env rootArgs w0 log h]
  by_cases h1 : (stepErrors env rootArgs w0).1 = none
  · by_cases h2 : (stepErrors env rootArgs w0).2.1 = none
    · simp [h1, h2, List.filter_append, InitCall.isFatalf]
    · simp [h1, h2, List.filter_append, InitCall.isFatalf]
  · simp [h1, List.filter_append, InitCall.isFatalf]

/-- C9: the `Run` function of the command built by `initCmd` applies `fatalf`
if and only if `initCrds` returns a non-nil error: then the world it leaves
is the one `fatalf("%v", err)` makes of the world left by `initCrds`, and an
environment that records its invocations has recorded, after those of
`initCrds`, exactly one invocation of `fatalf`, with the format `"%v"` and
that error as its single argument; when `initCrds` returns `nil` the world is
the one left by `initCrds` and no invocation of `fatalf` is recorded. -/
theorem initCmdRun_fatalf {W Opts Ctrl : Type} (env : InitEnv W Opts Ctrl)
    (rootArgs : RootArgs Opts) (w0 : W) :
    (∀ e, (initCrds env rootArgs w0).err = some e →
      (initCmdRun env rootArgs w0).world
        = env.fatalf "%v" [e] (initCrds env rootArgs w0).world ∧
      ∀ log : W → List (InitCall Opts Ctrl), InitRecords env log →
        log (initCmdRun env rootArgs w0).world
          = log (initCrds env rootArgs w0).world ++ [.fatalf "%v" [e]] ∧
        (log (initCmdRun env rootArgs w0).world).filter InitCall.isFatalf
          = (log w0).filter InitCall.isFatalf ++ [.fatalf "%v" [e]]) ∧
    ((initCrds env rootArgs w0).err = none →
      (initCmdRun env rootArgs w0).world = (initCrds env rootArgs w0).world ∧
      ∀ log : W → List (InitCall Opts Ctrl), InitRecords env log →
        (log (initCmdRun env rootArgs w0).world).filter InitCall.isFatalf
          = (log w0).filter InitCall.isFatalf) := by
  constructor
  · intro e he
    have hw : (initCmdRun env rootArgs w0).world
        = env.fatalf "%v" [e] (initCrds env rootArgs w0).world := by
      unfold initCmdRun
      simp only [he]
    refine ⟨hw, ?_⟩
    intro log h
    have hl : log (initCmdRun env rootArgs w0).world
        = log (initCrds env rootArgs w0).world ++ [.fatalf "%v" [e]] := by
      rw [hw, h.fatalf]
    refine ⟨hl, ?_⟩
    rw [hl, List.filter_append, initCrds_no_fatalf env rootArgs w0 log h]
    simp [InitCall.isFatalf]
  · intro hn
    have hw : (initCmdRun env rootArgs w0).world = (initCrds env rootArgs w0).world := by
      unfold initCmdRun
      simp only [hn]
    refine ⟨hw, ?_⟩
    intro log h
    rw [hw, initCrds_no_fatalf env rootArgs w0 log h]

/-- Witness for C9: `CopyCRDs` fails and the environment records `fatalf`
with that error, once, after the three invocations of `initCrds`. -/
theorem initCmdRun_fatalf_witness :
    (initCmdRun (recordingEnv none none (some ⟨"copy failed"⟩)) sampleArgs []).world
      = (initCrds (recordingEnv none none (some ⟨"copy failed"⟩)) sampleArgs []).world
        ++ [.fatalf "%v" [⟨"copy failed"⟩]] :=
  (((initCmdRun_fatalf (recordingEnv none none (some ⟨"copy failed"⟩)) sampleArgs []).1
    ⟨"copy failed"⟩ rfl).2 id (recordingEnv_records none none (some ⟨"copy failed"⟩))).1

end Galley

namespace Policy

/-- The loop finds a response with the looked-for code exactly when there is
one (or `received409` was already set). -/
theorem scanResponses_eq_true (tooMany : String) (l : List ParsedResponse) (b : Bool) :
    scanResponses tooMany l b = true ↔ (b = true ∨ ∃ resp ∈ l, resp.Code = tooMany) := by
  induction l with
  | nil => simp [scanResponses]
  | cons resp rest ih =>
    unfold scanResponses
    by_cases h : tooMany = resp.Code
    · simp [h]
    · have h2 : ¬ resp.Code = tooMany := fun e => h e.symm
      simp [h, h2, ih]

/-- C6: the check function passed to `retry.UntilSuccessOrFail` returns `nil`
if and only if `clt.Call` returned no error and at least one response in the
list has `Code` equal to `response.StatusCodeTooManyRequests`; in every other
case it returns the error "no request received StatusTooManyRequest error". -/
theorem checkClosure_nil_iff {W Ns Inst Ing Cluster Fetch : Type}
    (env : TestEnv W Ns Inst Ing Cluster Fetch) (g : Globals Ns Inst Ing) (w0 : W) :
    ((checkClosure env g w0).1 = none ↔
      ((env.call g.clt ⟨g.srv, "http", 5⟩ (env.logf "Sending 5 requests..." w0)).1.2 = none ∧
       ∃ resp ∈ (env.call g.clt ⟨g.srv, "http", 5⟩
          (env.logf "Sending 5 requests..." w0)).1.1,
         resp.Code = env.statusCodeTooManyRequests)) ∧
    ((checkClosure env g w0).1 = none ∨
      (checkClosure env g w0).1 = some ⟨"no request received StatusTooManyRequest error"⟩) := by
  unfold checkClosure checkCallResult
  have hs := scanResponses_eq_true env.statusCodeTooManyRequests
    (env.call g.clt ⟨g.srv, "http", 5⟩ (env.logf "Sending 5 requests..." w0)).1.1 false
  by_cases he : (env.call g.clt ⟨g.srv, "http", 5⟩
      (env.logf "Sending 5 requests..." w0)).1.2 = none
  · by_cases hb : scanResponses env.statusCodeTooManyRequests
        (env.call g.clt ⟨g.srv, "http", 5⟩ (env.logf "Sending 5 requests..." w0)).1.1 false
        = true
    · have hex := hs.mp hb
      simp only [Bool.false_eq_true, false_or] at hex
      simp [he, hb, hex]
    · have hnex : ¬ ∃ resp ∈ (env.call g.clt ⟨g.srv, "http", 5⟩
          (env.logf "Sending 5 requests..." w0)).1.1,
          resp.Code = env.statusCodeTooManyRequests := fun hex => hb (hs.mpr (Or.inr hex))
      simp only [he, hb, hnex]
      simp
  · simp [he]

/-- The world of `recordingEnv` is its record. -/
theorem setupRecordingEnv_records (failAt : Nat) (responses : List ParsedResponse)
    (callErr : GoErr) : SetupRecords (recordingEnv failAt responses callErr) id :=
  ⟨fun _ _ => rfl, fun _ _ _ => rfl, fun _ _ => rfl, fun _ _ => rfl, fun _ _ _ => rfl,
    fun _ _ => rfl⟩

/-- No step of a list returned an error exactly when `firstError` is `nil`. -/
theorem firstError_eq_none {Ns Fetch : Type} (l : List (SetupCall Ns Fetch)) :
    firstError l = none ↔ ∀ c ∈ l, c.err = none := by
  induction l with
  | nil => simp [firstError]
  | cons c cs ih =>
    unfold firstError
    by_cases hc : c.err = none
    · simp [hc, ih]
    · simp [hc]

/-- The error returned by `testSetup` is that of the first of its ten steps
that returns one. -/
theorem testSetup_err {W Ns Inst Ing Cluster Fetch : Type}
    (env : TestEnv W Ns Inst Ing Cluster Fetch) (g0 : Globals Ns Inst Ing) (w0 : W) :
    ∀ r, r = testSetup env g0 w0 → r.err = firstError (setupSteps env w0) := by
  intro r hr
  unfold testSetup at hr
  lift_lets at hr
  extract_lets r1 g1 e1 r2 g2 e2 r3 g3 r4 g4 e4 r5 y5 e5 r6 e6
    pth r7 y7 e7 r8 e8 f9 r9 e9 f10 r10 e10 at hr
  have hp : setupSteps env w0 =
      [.namespaceNew ⟨"istio-echo", true⟩ e1,
       .echoBuild ⟨"clt", r1.1.1, []⟩ ⟨"srv", r1.1.1, [⟨"http", "HTTP", 8888⟩]⟩ e2,
       .ingressFor,
       .namespaceNew ⟨"istio-ratelimit", false⟩ e4,
       .readFile "testdata/rate-limit-configmap.yaml" e5,
       .applyYAML (env.nsName r4.1.1) y5 e6,
       .readFile pth e7,
       .applyYAML (env.nsName r4.1.1) y7 e8,
       .waitUntilPodsAreReady f9 e9,
       .waitUntilPodsAreReady f10 e10] := rfl
  rw [hp]
  clear hp
  clear_value e1 e2 e4 e5 e6 e7 e8 e9 e10 g1 g2 g3 g4 y5 y7 pth f9 f10
  clear_value r1 r2 r3 r4 r5 r6 r7 r8 r9 r10
  by_cases h1 : e1 ≠ none
  · rw [if_pos h1] at hr
    subst hr
    simp_all [firstError, SetupCall.err]
  rw [if_neg h1] at hr
  by_cases h2 : e2 ≠ none
  · rw [if_pos h2] at hr
    subst hr
    simp_all [firstError, SetupCall.err]
  rw [if_neg h2] at hr
  by_cases h4 : e4 ≠ none
  · rw [if_pos h4] at hr
    subst hr
    simp_all [firstError, SetupCall.err]
  rw [if_neg h4] at hr
  by_cases h5 : e5 ≠ none
  · rw [if_pos h5] at hr
    subst hr
    simp_all [firstError, SetupCall.err]
  rw [if_neg h5] at hr
  by_cases h6 : e6 ≠ none
  · rw [if_pos h6] at hr
    subst hr
    simp_all [firstError, SetupCall.err]
  rw [if_neg h6] at hr
  by_cases h7 : e7 ≠ none
  · rw [if_pos h7] at hr
    subst hr
    simp_all [firstError, SetupCall.err]
  rw [if_neg h7] at hr
  by_cases h8 : e8 ≠ none
  · rw [if_pos h8] at hr
    subst hr
    simp_all [firstError, SetupCall.err]
  rw [if_neg h8] at hr
  by_cases h9 : e9 ≠ none
  · rw [if_pos h9] at hr
    subst hr
    simp_all [firstError, SetupCall.err]
  rw [if_neg h9] at hr
  by_cases h10 : e10 ≠ none
  · rw [if_pos h10] at hr
    subst hr
    simp_all [firstError, SetupCall.err]
  rw [if_neg h10] at hr
  subst hr
  simp_all [firstError, SetupCall.err]

/-- The invocations recorded by the environment during `testSetup` are its
steps up to and including the first one that returns an error. -/
theorem testSetup_log {W Ns Inst Ing Cluster Fetch : Type}
    (env : TestEnv W Ns Inst Ing Cluster Fetch) (g0 : Globals Ns Inst Ing) (w0 : W)
    (log : W → List (SetupCall Ns Fetch)) (h : SetupRecords env log) :
    ∀ r, r = testSetup env g0 w0 →
      log r.world = log w0 ++ throughFirstError (setupSteps env w0) := by
  intro r hr
  unfold testSetup at hr
  lift_lets at hr
  extract_lets r1 g1 e1 r2 g2 e2 r3 g3 r4 g4 e4 r5 y5 e5 r6 e6
    pth r7 y7 e7 r8 e8 f9 r9 e9 f10 r10 e10 at hr
  have hp : setupSteps env w0 =
      [.namespaceNew ⟨"istio-echo", true⟩ e1,
       .echoBuild ⟨"clt", r1.1.1, []⟩ ⟨"srv", r1.1.1, [⟨"http", "HTTP", 8888⟩]⟩ e2,
       .ingressFor,
       .namespaceNew ⟨"istio-ratelimit", false⟩ e4,
       .readFile "testdata/rate-limit-configmap.yaml" e5,
       .applyYAML (env.nsName r4.1.1) y5 e6,
       .readFile pth e7,
       .applyYAML (env.nsName r4.1.1) y7 e8,
       .waitUntilPodsAreReady f9 e9,
       .waitUntilPodsAreReady f10 e10] := rfl
  rw [hp]
  clear hp
  have l1 : log r1.2 = log w0 ++ [.namespaceNew ⟨"istio-echo", true⟩ e1] :=
    h.namespaceNew _ _
  have l2 : log r2.2 = log r1.2 ++
      [.echoBuild ⟨"clt", r1.1.1, []⟩ ⟨"srv", r1.1.1, [⟨"http", "HTTP", 8888⟩]⟩ e2] :=
    h.echoBuild _ _ _
  have l3 : log r3.2 = log r2.2 ++ [.ingressFor] := h.ingressFor _ _
  have l4 : log r4.2 = log r3.2 ++ [.namespaceNew ⟨"istio-ratelimit", false⟩ e4] :=
    h.namespaceNew _ _
  have l5 : log r5.2 = log r4.2 ++ [.readFile "testdata/rate-limit-configmap.yaml" e5] :=
    h.readFile _ _
  have l6 : log r6.2 = log r5.2 ++ [.applyYAML (env.nsName r4.1.1) y5 e6] :=
    h.applyYAML _ _ _
  have l7 : log r7.2 = log r6.2 ++ [.readFile pth e7] := h.readFile _ _
  have l8 : log r8.2 = log r7.2 ++ [.applyYAML (env.nsName r4.1.1) y7 e8] :=
    h.applyYAML _ _ _
  have l9 : log r9.2 = log r8.2 ++ [.waitUntilPodsAreReady f9 e9] :=
    h.waitUntilPodsAreReady _ _
  have l10 : log r10.2 = log r9.2 ++ [.waitUntilPodsAreReady f10 e10] :=
    h.waitUntilPodsAreReady _ _
  clear_value e1 e2 e4 e5 e6 e7 e8 e9 e10 g1 g2 g3 g4 y5 y7 pth f9 f10
  clear_value r1 r2 r3 r4 r5 r6 r7 r8 r9 r10
  by_cases h1 : e1 ≠ none
  · rw [if_pos h1] at hr
    subst hr
    simp_all [throughFirstError, SetupCall.err]
  rw [if_neg h1] at hr
  by_cases h2 : e2 ≠ none
  · rw [if_pos h2] at hr
    subst hr
    simp_all [throughFirstError, SetupCall.err]
  rw [if_neg h2] at hr
  by_cases h4 : e4 ≠ none
  · rw [if_pos h4] at hr
    subst hr
    simp_all [throughFirstError, SetupCall.err]
  rw [if_neg h4] at hr
  by_cases h5 : e5 ≠ none
  · rw [if_pos h5] at hr
    subst hr
    simp_all [throughFirstError, SetupCall.err]
  rw [if_neg h5] at hr
  by_cases h6 : e6 ≠ none
  · rw [if_pos h6] at hr
    subst hr
    simp_all [throughFirstError, SetupCall.err]
  rw [if_neg h6] at hr
  by_cases h7 : e7 ≠ none
  · rw [if_pos h7] at hr
    subst hr
    simp_all [throughFirstError, SetupCall.err]
  rw [if_neg h7] at hr
  by_cases h8 : e8 ≠ none
  · rw [if_pos h8] at hr
    subst hr
    simp_all [throughFirstError, SetupCall.err]
  rw [if_neg h8] at hr
  by_cases h9 : e9 ≠ none
  · rw [if_pos h9] at hr
    subst hr
    simp_all [throughFirstError, SetupCall.err]
  rw [if_neg h9] at hr
  by_cases h10 : e10 ≠ none
  · rw [if_pos h10] at hr
    subst hr
    simp_all [throughFirstError, SetupCall.err]
  rw [if_neg h10] at hr
  subst hr
  simp_all [throughFirstError, SetupCall.err]

/-- C10: `testSetup` returns the error of the first of its ten steps, taken
in source order, that returns one (also for the two `ioutil.ReadFile` calls,
whose error is bound with `:=`), and `nil` if and only if every step
succeeds; an environment that records its invocations has recorded the steps
in source order up to and including the first failing one, and none after
it. -/
theorem testSetup_first_error {W Ns Inst Ing Cluster Fetch : Type}
    (env : TestEnv W Ns Inst Ing Cluster Fetch) (g0 : Globals Ns Inst Ing) (w0 : W) :
    (testSetup env g0 w0).err = firstError (setupSteps env w0) ∧
    ((testSetup env g0 w0).err = none ↔ ∀ c ∈ setupSteps env w0, c.err = none) ∧
    (∀ log : W → List (SetupCall Ns Fetch), SetupRecords env log →
      log (testSetup env g0 w0).world
        = log w0 ++ throughFirstError (setupSteps env w0)) := by
  have he := testSetup_err env g0 w0 _ rfl
  refine ⟨he, ?_, fun log h => testSetup_log env g0 w0 log h _ rfl⟩
  rw [he]
  exact firstError_eq_none _

/-- Witness for C10: the second `ioutil.ReadFile` fails; the environment has
recorded the first seven steps and no later one. -/
theorem testSetup_first_error_witness :
    (testSetup (recordingEnv 6 [] none) zeroGlobals []).world =
      [.namespaceNew ⟨"istio-echo", true⟩ none,
       .echoBuild ⟨"clt", 10, []⟩ ⟨"srv", 10, [⟨"http", "HTTP", 8888⟩]⟩ none,
       .ingressFor,
       .namespaceNew ⟨"istio-ratelimit", false⟩ none,
       .readFile "testdata/rate-limit-configmap.yaml" none,
       .applyYAML "istio-ratelimit-1" "content of testdata/rate-limit-configmap.yaml" none,
       .readFile "/go/src/istio.io/istio/samples/ratelimit/ratelimit.yaml"
         (some ⟨"open /go/src/istio.io/istio/samples/ratelimit/ratelimit.yaml"⟩)] :=
  ((testSetup_first_error (recordingEnv 6 [] none) zeroGlobals []).2.2 id
    (setupRecordingEnv_records 6 [] none)).trans (by decide)

end Policy

namespace RateLimit

/-- With no elapsed time and no more tokens than the capacity, the refill
leaves the token count unchanged. -/
theorem Bucket.check_same_instant (c t r now : ℚ) (h : t ≤ c) :
    (Bucket.check ⟨c, t, r, now⟩ now) =
      if 1 ≤ t then (⟨.ADMIT, none, none⟩, ⟨c, t - 1, r, now⟩)
      else (⟨.DENY, some ((1 - t) / r), none⟩, ⟨c, t, r, now⟩) := by
  unfold Bucket.check
  simp [min_eq_right h]

/-- Kinds returned by repeated checks at one instant on a bucket holding `k`
whole tokens: `k` admissions (at most `n`), then denials. -/
theorem Bucket.checkRepeated_kinds (c r now : ℚ) (n : Nat) :
    ∀ k : Nat, (k : ℚ) ≤ c →
      ((Bucket.checkRepeated ⟨c, k, r, now⟩ now n).map fun v => v.kind) =
        List.replicate (min k n) VerdictKind.ADMIT ++
          List.replicate (n - min k n) VerdictKind.DENY := by
  induction n with
  | zero => intro k _; simp [Bucket.checkRepeated]
  | succ n ih =>
    intro k hk
    unfold Bucket.checkRepeated
    rw [Bucket.check_same_instant c k r now hk]
    cases k with
    | zero =>
      have h0 : ¬ (1 : ℚ) ≤ ((0 : Nat) : ℚ) := by norm_num
      rw [if_neg h0]
      have := ih 0 (by simpa using hk)
      simp only [List.map_cons, this]
      simp [List.replicate_succ]
    | succ k =>
      have h1 : (1 : ℚ) ≤ ((k + 1 : Nat) : ℚ) := by
        push_cast
        have : (0 : ℚ) ≤ (k : ℚ) := Nat.cast_nonneg k
        linarith
      rw [if_pos h1]
      have hk2 : ((k : Nat) : ℚ) ≤ c := by
        push_cast at hk
        linarith
      have e : (((k + 1 : Nat) : ℚ) - 1) = ((k : Nat) : ℚ) := by
        push_cast
        ring
      simp only [List.map_cons, e]
      rw [ih k hk2]
      simp [Nat.succ_min_succ, List.replicate_succ]

/-- C1: for a fresh local bucket with whole-number capacity `C` and refill
rate `R`, among `N ≥ C` checks issued with no elapsed time exactly `C` return
ADMIT and the remaining `N - C` return DENY. -/
theorem fresh_bucket_admits_capacity (C N : Nat) (R now : ℚ) (h : C ≤ N) :
    ((Bucket.checkRepeated (Bucket.fresh C R now) now N).countP
        (fun v => v.kind = VerdictKind.ADMIT) = C) ∧
    ((Bucket.checkRepeated (Bucket.fresh C R now) now N).countP
        (fun v => v.kind = VerdictKind.DENY) = N - C) ∧
    (Bucket.checkRepeated (Bucket.fresh C R now) now N).length = N := by
  have hk := Bucket.checkRepeated_kinds C R now N C le_rfl
  rw [min_eq_left h] at hk
  have hlen : (Bucket.checkRepeated (Bucket.fresh C R now) now N).length = N := by
    have := congrArg List.length hk
    simpa [Bucket.fresh, Nat.add_sub_cancel' h] using this
  refine ⟨?_, ?_, hlen⟩
  · have e : (Bucket.checkRepeated (Bucket.fresh C R now) now N).countP
          (fun v => v.kind = VerdictKind.ADMIT)
        = ((Bucket.checkRepeated (Bucket.fresh C R now) now N).map fun v => v.kind).countP
          (fun k => k = VerdictKind.ADMIT) := by
      rw [List.countP_map]
      rfl
    rw [e]
    unfold Bucket.fresh
    rw [hk]
    simp [List.countP_append, List.countP_replicate]
  · have e : (Bucket.checkRepeated (Bucket.fresh C R now) now N).countP
          (fun v => v.kind = VerdictKind.DENY)
        = ((Bucket.checkRepeated (Bucket.fresh C R now) now N).map fun v => v.kind).countP
          (fun k => k = VerdictKind.DENY) := by
      rw [List.countP_map]
      rfl
    rw [e]
    unfold Bucket.fresh
    rw [hk]
    simp [List.countP_append, List.countP_replicate]

/-- Witness for C1: capacity 2, refill rate 1/2 per second, 3 checks. -/
theorem fresh_bucket_admits_capacity_witness :
    ((Bucket.checkRepeated (Bucket.fresh (2 : Nat) (1 / 2) 0) 0 3).countP
        (fun v => v.kind = VerdictKind.ADMIT) = 2) ∧
    ((Bucket.checkRepeated (Bucket.fresh (2 : Nat) (1 / 2) 0) 0 3).countP
        (fun v => v.kind = VerdictKind.DENY) = 3 - 2) ∧
    (Bucket.checkRepeated (Bucket.fresh (2 : Nat) (1 / 2) 0) 0 3).length = 3 :=
  fresh_bucket_admits_capacity 2 3 (1 / 2) 0 (by decide)

/-- The merger's fold yields DENY exactly when it started from DENY or meets
a DENY verdict. -/
theorem foldl_mergeStep_deny (vs : List Verdict) :
    ∀ o : Outcome, (vs.foldl mergeStep o).kind = VerdictKind.DENY ↔
      (o.kind = VerdictKind.DENY ∨ ∃ v ∈ vs, v.kind = VerdictKind.DENY) := by
  induction vs with
  | nil => intro o; simp
  | cons v vs ih =>
    intro o
    rw [List.foldl_cons, ih]
    cases hv : v.kind <;> simp [mergeStep, hv]

/-- The merger's fold never yields a kind it did not start from, other than
DENY. -/
theorem foldl_mergeStep_kind (vs : List Verdict) :
    ∀ o : Outcome, (vs.foldl mergeStep o).kind = VerdictKind.DENY ∨
      (vs.foldl mergeStep o).kind = o.kind := by
  induction vs with
  | nil => intro o; simp
  | cons v vs ih =>
    intro o
    rw [List.foldl_cons]
    rcases ih (mergeStep o v) with h | h
    · exact Or.inl h
    · rw [h]
      cases hv : v.kind <;> simp [mergeStep, hv]

/-- The merged outcome is ADMIT or DENY. -/
theorem merge_kind_definite (vs : List Verdict) :
    (merge vs).kind = VerdictKind.ADMIT ∨ (merge vs).kind = VerdictKind.DENY := by
  rcases foldl_mergeStep_kind vs ⟨.ADMIT, none, []⟩ with h | h
  · exact Or.inr h
  · exact Or.inl h

/-- C2 (Decision Merger): for every list of verdicts produced for one
request, the final outcome is DENY if any verdict in the list is DENY, and
ADMIT otherwise; in particular the empty list yields ADMIT. -/
theorem merge_deny_iff_any_deny (vs : List Verdict) :
    ((∃ v ∈ vs, v.kind = VerdictKind.DENY) → (merge vs).kind = VerdictKind.DENY) ∧
    ((¬ ∃ v ∈ vs, v.kind = VerdictKind.DENY) → (merge vs).kind = VerdictKind.ADMIT) ∧
    (merge []).kind = VerdictKind.ADMIT := by
  have h := foldl_mergeStep_deny vs ⟨.ADMIT, none, []⟩
  refine ⟨?_, ?_, rfl⟩
  · intro hex
    exact h.mpr (Or.inr hex)
  · intro hno
    rcases merge_kind_definite vs with ha | hd
    · exact ha
    · rcases h.mp hd with h0 | hex
      · cases h0
      · exact absurd hex hno

/-- Witness for C2: one DENY among two ADMIT verdicts. -/
theorem merge_deny_iff_any_deny_witness :
    (merge [⟨.ADMIT, none, none⟩, ⟨.DENY, some 2, none⟩, ⟨.ADMIT, none, none⟩]).kind
      = VerdictKind.DENY :=
  (merge_deny_iff_any_deny
    [⟨.ADMIT, none, none⟩, ⟨.DENY, some 2, none⟩, ⟨.ADMIT, none, none⟩]).1
    ⟨⟨.DENY, some 2, none⟩, by simp, rfl⟩

/-- An attempt whose round trip ends within the timeout with one code per
descriptor set returns those codes and takes the time of the round trip. -/
theorem attempt_codes (svc : CounterService) (n : Nat) (batch : List Descriptor)
    (timeout : Nat) (cs : List Code)
    (hl : (svc n batch).latency ≤ timeout)
    (hr : (svc n batch).reply = WireReply.codes cs)
    (hlen : cs.length = batch.length) :
    attempt svc n batch timeout = (CallResult.response cs, (svc n batch).latency) := by
  unfold attempt
  have hto : ¬ timeout < (svc n batch).latency := Nat.not_lt.mpr hl
  simp [hto, hr, hlen]

/-- An attempt whose round trip ends within the timeout without one code per
descriptor set is a failure and takes the time of the round trip. -/
theorem attempt_no_codes (svc : CounterService) (n : Nat) (batch : List Descriptor)
    (timeout : Nat)
    (hl : (svc n batch).latency ≤ timeout)
    (hr : ∀ cs, (svc n batch).reply = WireReply.codes cs → cs.length ≠ batch.length) :
    ∃ f, attempt svc n batch timeout = (CallResult.failure f, (svc n batch).latency) := by
  unfold attempt
  have hto : ¬ timeout < (svc n batch).latency := Nat.not_lt.mpr hl
  cases hrep : (svc n batch).reply with
  | connectionFailure => exact ⟨Failure.connectionFailure, by simp [hto, hrep]⟩
  | unreadable => exact ⟨Failure.malformed, by simp [hto, hrep]⟩
  | codes cs0 =>
    have hne := hr cs0 hrep
    exact ⟨Failure.malformed, by simp [hto, hrep, hne]⟩

/-- The verdict for a response: DENY with an OVER_LIMIT code, ADMIT when
every code is OK. -/
theorem verdictOfCall_response (cs : List Code) :
    (Code.OVER_LIMIT ∈ cs → (verdictOfCall (CallResult.response cs)).kind = VerdictKind.DENY) ∧
    ((∀ c ∈ cs, c = Code.OK) →
      (verdictOfCall (CallResult.response cs)).kind = VerdictKind.ADMIT) := by
  constructor
  · intro hov
    have hany : cs.any (fun c => decide (c = Code.OVER_LIMIT)) = true := by
      rw [List.any_eq_true]
      exact ⟨Code.OVER_LIMIT, hov, by simp⟩
    simp [verdictOfCall, hany]
  · intro hok
    have hany : cs.any (fun c => decide (c = Code.OVER_LIMIT)) = false := by
      rw [List.any_eq_false]
      intro c hc
      rw [hok c hc]
      simp
    simp [verdictOfCall, hany]

/-- C3 as amended (Global Limit Client): for every batch of descriptor sets
and every well-formed reply `cs` of the Shared Counter Service (one code per
descriptor set) that reaches the client within its timeout, `check` returns
DENY if `cs` is OVER_LIMIT for at least one descriptor, even when every other
descriptor is OK, and ADMIT when `cs` is OK for all.  The reply reaches the
client either on the first round trip, within the timeout, or on the retry,
within the remainder of the timeout, after a first round trip that took some
but not all of the timeout and brought no well-formed reply. -/
theorem globalCheck_reply (svc : CounterService) (batch : List Descriptor)
    (timeout : Nat) (cs : List Code) (hlen : cs.length = batch.length) :
    ((svc 0 batch).latency ≤ timeout →
      (svc 0 batch).reply = WireReply.codes cs →
        (Code.OVER_LIMIT ∈ cs → (globalCheck svc batch timeout).kind = VerdictKind.DENY) ∧
        ((∀ c ∈ cs, c = Code.OK) →
          (globalCheck svc batch timeout).kind = VerdictKind.ADMIT)) ∧
    (0 < (svc 0 batch).latency → (svc 0 batch).latency < timeout →
      (∀ cs0, (svc 0 batch).reply = WireReply.codes cs0 → cs0.length ≠ batch.length) →
      (svc 1 batch).latency ≤ timeout - (svc 0 batch).latency →
      (svc 1 batch).reply = WireReply.codes cs →
        (Code.OVER_LIMIT ∈ cs → (globalCheck svc batch timeout).kind = VerdictKind.DENY) ∧
        ((∀ c ∈ cs, c = Code.OK) →
          (globalCheck svc batch timeout).kind = VerdictKind.ADMIT)) := by
  constructor
  · intro hl hr
    have hcall : callService svc batch timeout = CallResult.response cs := by
      unfold callService
      simp [attempt_codes svc 0 batch timeout cs hl hr hlen]
    unfold globalCheck
    rw [hcall]
    exact verdictOfCall_response cs
  · intro hpos hlt hbad hl1 hr1
    obtain ⟨f, hf⟩ := attempt_no_codes svc 0 batch timeout (Nat.le_of_lt hlt) hbad
    have hrem : 0 < timeout - (svc 0 batch).latency ∧
        timeout - (svc 0 batch).latency < timeout := by
      constructor <;> omega
    have hcall : callService svc batch timeout = CallResult.response cs := by
      unfold callService
      simp only [hf]
      rw [if_pos hrem, attempt_codes svc 1 batch _ cs hl1 hr1 hlen]
    unfold globalCheck
    rw [hcall]
    exact verdictOfCall_response cs

/-- Witness for C3 as amended: the first round trip finds no connection after
10 ms of a 200 ms timeout, the retry brings `[OK, OVER_LIMIT]` after 20 ms,
and the verdict is DENY. -/
theorem globalCheck_reply_witness :
    (globalCheck flakyService [[("route", "/api")], [("remote_address", "1.2.3.4")]] 200).kind
      = VerdictKind.DENY :=
  ((globalCheck_reply flakyService [[("route", "/api")], [("remote_address", "1.2.3.4")]]
    200 [.OK, .OVER_LIMIT] rfl).2 (by decide) (by decide)
    (fun _ h => by simp [flakyService] at h) (by decide) rfl).1
    (by decide)

/-- Counterexample to C3 as stated: the reply of the Shared Counter Service is
well-formed (one code for the one descriptor set) and OVER_LIMIT, but it
comes after 1000 ms against a timeout of 100 ms, and `check` returns ERROR,
not DENY. -/
theorem late_over_limit_reply_is_error :
    (lateService 0 [[("route", "/api")]]).reply = WireReply.codes [Code.OVER_LIMIT] ∧
    [Code.OVER_LIMIT].length = [[("route", "/api")]].length ∧
    Code.OVER_LIMIT ∈ [Code.OVER_LIMIT] ∧
    (globalCheck lateService [[("route", "/api")]] 100).kind = VerdictKind.ERROR ∧
    (globalCheck lateService [[("route", "/api")]] 100).kind ≠ VerdictKind.DENY := by
  decide

/-- Every rule kept by `firstPerStrategy` is one of the candidates. -/
theorem firstPerStrategy_subset (l : List Rule) :
    ∀ (a b : Bool) (r : Rule), r ∈ firstPerStrategy l a b → r ∈ l := by
  induction l with
  | nil => intro a b r h; simp [firstPerStrategy] at h
  | cons x l ih =>
    intro a b r h
    unfold firstPerStrategy at h
    cases hx : x.strategy <;> simp only [hx] at h
    · by_cases ha : a = true
      · simp only [ha, if_true] at h
        exact List.mem_cons_of_mem _ (ih _ _ _ h)
      · simp only [ha] at h
        rcases List.mem_cons.mp h with h1 | h1
        · rw [h1]; exact List.mem_cons_self _ _
        · exact List.mem_cons_of_mem _ (ih _ _ _ h1)
    · by_cases hb : b = true
      · simp only [hb, if_true] at h
        exact List.mem_cons_of_mem _ (ih _ _ _ h)
      · simp only [hb] at h
        rcases List.mem_cons.mp h with h1 | h1
        · rw [h1]; exact List.mem_cons_self _ _
        · exact List.mem_cons_of_mem _ (ih _ _ _ h1)

/-- `firstPerStrategy` keeps at most one local rule, none when one was seen. -/
theorem firstPerStrategy_count_local (l : List Rule) :
    ∀ (a b : Bool), (firstPerStrategy l a b).countP
      (fun r => r.strategy = Strategy.localStrategy) ≤ if a then 0 else 1 := by
  induction l with
  | nil => intro a b; simp [firstPerStrategy]
  | cons x l ih =>
    intro a b
    unfold firstPerStrategy
    cases hx : x.strategy <;> simp only []
    · cases a
      · have := ih true b
        simp [List.countP_cons, hx] at this ⊢
        exact this
      · simpa using ih true b
    · cases b
      · have := ih a true
        simpa [List.countP_cons, hx] using this
      · simpa using ih a true

/-- `firstPerStrategy` keeps at most one global rule, none when one was
seen. -/
theorem firstPerStrategy_count_global (l : List Rule) :
    ∀ (a b : Bool), (firstPerStrategy l a b).countP
      (fun r => r.strategy = Strategy.globalStrategy) ≤ if b then 0 else 1 := by
  induction l with
  | nil => intro a b; simp [firstPerStrategy]
  | cons x l ih =>
    intro a b
    unfold firstPerStrategy
    cases hx : x.strategy <;> simp only []
    · cases a
      · have := ih true b
        simpa [List.countP_cons, hx] using this
      · simpa using ih true b
    · cases b
      · have := ih a true
        simp [List.countP_cons, hx] at this ⊢
        exact this
      · simpa using ih a true

/-- The matcher output holds at most one local pair. -/
theorem matcher_count_local (policy : Policy) (req : Request) :
    (matcher policy req).countP (fun c => c.strategy = Strategy.localStrategy) ≤ 1 := by
  unfold matcher
  rw [List.countP_map]
  exact firstPerStrategy_count_local (candidateRules policy req) false false

/-- The matcher output holds at most one global pair. -/
theorem matcher_count_global (policy : Policy) (req : Request) :
    (matcher policy req).countP (fun c => c.strategy = Strategy.globalStrategy) ≤ 1 := by
  unfold matcher
  rw [List.countP_map]
  exact firstPerStrategy_count_global (candidateRules policy req) false false

/-- With an override rule for the matched route, the candidates are the
override rules. -/
theorem candidateRules_of_override (policy : Policy) (req : Request)
    (h : ∃ r ∈ policy.rules, r.scope = Scope.routeOverride req.routeId) :
    candidateRules policy req = overrideRules policy req := by
  obtain ⟨r, hr, hs⟩ := h
  have hm : r ∈ overrideRules policy req := by
    unfold overrideRules
    rw [List.mem_filter]
    exact ⟨hr, by simp [hs]⟩
  unfold candidateRules
  cases ho : overrideRules policy req with
  | nil => rw [ho] at hm; cases hm
  | cons x xs => rfl

/-- C5 (shadowing): when the matched route of a request has a route-override
rule, every pair of the matcher output is derived from an override rule of
that route and none from a vhost-default rule; and the output contains at
most one local and at most one global pair. -/
theorem matcher_shadowing (policy : Policy) (req : Request) :
    ((∃ r ∈ policy.rules, r.scope = Scope.routeOverride req.routeId) →
      ∀ c ∈ matcher policy req,
        c.rule ∈ overrideRules policy req ∧
        c.rule.scope ≠ Scope.vhostDefault ∧
        c = ⟨c.rule.strategy,
          resolveDescriptor policy.caseInsensitiveHeaders req c.rule.template, c.rule⟩) ∧
    (matcher policy req).countP (fun c => c.strategy = Strategy.localStrategy) ≤ 1 ∧
    (matcher policy req).countP (fun c => c.strategy = Strategy.globalStrategy) ≤ 1 := by
  refine ⟨?_, matcher_count_local policy req, matcher_count_global policy req⟩
  intro hov c hc
  unfold matcher at hc
  rw [candidateRules_of_override policy req hov, List.mem_map] at hc
  obtain ⟨r, hr, hrc⟩ := hc
  have hmem := firstPerStrategy_subset _ _ _ _ hr
  subst hrc
  refine ⟨hmem, ?_, rfl⟩
  unfold overrideRules at hmem
  rw [List.mem_filter] at hmem
  have hs : r.scope = Scope.routeOverride req.routeId := by simpa using hmem.2
  simp [hs]

/-- Witness for C5: with the override present, the pair in the matcher output
is derived from the override rule. -/
theorem matcher_shadowing_witness :
    apiCandidate.rule ∈ overrideRules overridePolicy apiRequest ∧
      apiCandidate.rule.scope ≠ Scope.vhostDefault ∧
      apiCandidate = ⟨apiCandidate.rule.strategy,
        resolveDescriptor overridePolicy.caseInsensitiveHeaders apiRequest
          apiCandidate.rule.template,
        apiCandidate.rule⟩ :=
  (matcher_shadowing overridePolicy apiRequest).1 ⟨apiLocalRule, by decide, by decide⟩
    apiCandidate (by decide)

/-- A strategy that is not local is global. -/
theorem Strategy.eq_global_of_ne_local (s : Strategy) (h : s ≠ Strategy.localStrategy) :
    s = Strategy.globalStrategy := by
  cases s
  · exact absurd rfl h
  · rfl

/-- Evaluating a global pair leaves the Local Bucket Engine as it is, and its
verdict does not depend on the engine. -/
theorem evalCandidate_global (svc : CounterService) (timeout : Nat) (now : ℚ)
    (e e0 : LocalEngine) (c : Candidate) (h : c.strategy = Strategy.globalStrategy) :
    (evalCandidate svc timeout now e c).2 = e ∧
    (evalCandidate svc timeout now e c).1 = (evalCandidate svc timeout now e0 c).1 := by
  unfold evalCandidate
  simp [h]

/-- On a list of global pairs the verdicts do not depend on the engine. -/
theorem evalAll_all_global (svc : CounterService) (timeout : Nat) (now : ℚ)
    (cs : List Candidate) :
    ∀ e e0 : LocalEngine, (∀ c ∈ cs, c.strategy = Strategy.globalStrategy) →
      (evalAll svc timeout now e cs).1
        = cs.map (fun c => (evalCandidate svc timeout now e0 c).1) := by
  induction cs with
  | nil => intro e e0 _; rfl
  | cons c cs ih =>
    intro e e0 h
    have hc := h c (List.mem_cons_self _ _)
    have hcs : ∀ c2 ∈ cs, c2.strategy = Strategy.globalStrategy :=
      fun c2 h2 => h c2 (List.mem_cons_of_mem _ h2)
    unfold evalAll
    simp only [List.map_cons]
    rw [ih _ e0 hcs, (evalCandidate_global svc timeout now e e0 c hc).2]

/-- With at most one local pair, every pair is evaluated against the engine
state the request started with. -/
theorem evalAll_one_local (svc : CounterService) (timeout : Nat) (now : ℚ)
    (cs : List Candidate) :
    ∀ e : LocalEngine,
      cs.countP (fun c => c.strategy = Strategy.localStrategy) ≤ 1 →
      (evalAll svc timeout now e cs).1
        = cs.map (fun c => (evalCandidate svc timeout now e c).1) := by
  induction cs with
  | nil => intro e _; rfl
  | cons c cs ih =>
    intro e h
    unfold evalAll
    simp only [List.map_cons]
    by_cases hc : c.strategy = Strategy.localStrategy
    · have h0 : cs.countP (fun c => c.strategy = Strategy.localStrategy) = 0 := by
        simp [List.countP_cons, hc] at h
        simpa using h
      have hall : ∀ c2 ∈ cs, c2.strategy = Strategy.globalStrategy := by
        intro c2 h2
        apply Strategy.eq_global_of_ne_local
        intro hl
        have := (List.countP_eq_zero.mp h0) c2 h2
        simp [hl] at this
      rw [evalAll_all_global svc timeout now cs _ e hall]
    · have hg := Strategy.eq_global_of_ne_local _ hc
      have hle : cs.countP (fun c => c.strategy = Strategy.localStrategy) ≤ 1 := by
        simpa [List.countP_cons, hc] using h
      rw [(evalCandidate_global svc timeout now e e c hg).1, ih e hle]

/-- Two members of a list that holds at most one element with a property are
equal when both have the property. -/
theorem eq_of_countP_le_one {α : Type} (p : α → Bool) (l : List α) :
    l.countP p ≤ 1 → ∀ a b, a ∈ l → b ∈ l → p a = true → p b = true → a = b := by
  induction l with
  | nil => intro _ a b ha; cases ha
  | cons x l ih =>
    intro h a b ha hb pa pb
    by_cases px : p x = true
    · have h0 : l.countP p = 0 := by
        rw [List.countP_cons_of_pos _ _ px] at h
        omega
      have hnone : ∀ y ∈ l, ¬ p y = true := List.countP_eq_zero.mp h0
      have hax : a = x := by
        rcases List.mem_cons.mp ha with h1 | h1
        · exact h1
        · exact absurd pa (hnone a h1)
      have hbx : b = x := by
        rcases List.mem_cons.mp hb with h1 | h1
        · exact h1
        · exact absurd pb (hnone b h1)
      rw [hax, hbx]
    · have hle : l.countP p ≤ 1 := by
        simpa [List.countP_cons, px] using h
      have hal : a ∈ l := by
        rcases List.mem_cons.mp ha with h1 | h1
        · rw [h1] at pa; exact absurd pa px
        · exact h1
      have hbl : b ∈ l := by
        rcases List.mem_cons.mp hb with h1 | h1
        · rw [h1] at pb; exact absurd pb px
        · exact h1
      exact ih hle a b hal hbl pa pb

/-- The request outcome is DENY exactly when the evaluation of some pair of
the matcher output, against the engine state the request started with, is
DENY. -/
theorem rateCheck_deny_iff (policy : Policy) (svc : CounterService) (timeout : Nat)
    (e : LocalEngine) (now : ℚ) (req : Request) :
    (rateCheck policy svc timeout e now req).1.kind = VerdictKind.DENY ↔
      ∃ c ∈ matcher policy req,
        (evalCandidate svc timeout now e c).1.kind = VerdictKind.DENY := by
  unfold rateCheck merge
  simp only []
  rw [foldl_mergeStep_deny, evalAll_one_local svc timeout now _ e
    (matcher_count_local policy req)]
  simp

/-- The request outcome is ADMIT or DENY. -/
theorem rateCheck_definite (policy : Policy) (svc : CounterService) (timeout : Nat)
    (e : LocalEngine) (now : ℚ) (req : Request) :
    (rateCheck policy svc timeout e now req).1.kind = VerdictKind.ADMIT ∨
    (rateCheck policy svc timeout e now req).1.kind = VerdictKind.DENY :=
  merge_kind_definite _

/-- The verdict of a global pair whose call failed, after the failure
policy. -/
theorem evalCandidate_global_failure (svc : CounterService) (timeout : Nat) (now : ℚ)
    (e : LocalEngine) (c : Candidate) (f : Failure)
    (hg : c.strategy = Strategy.globalStrategy)
    (hf : callService svc [c.descriptor] timeout = CallResult.failure f) :
    (evalCandidate svc timeout now e c).1.kind =
      match c.rule.actionOnFailure with
      | .allow => VerdictKind.ADMIT
      | .deny => VerdictKind.DENY := by
  unfold evalCandidate
  simp only [hg, globalCheck, hf, verdictOfCall, applyFailurePolicy]
  cases c.rule.actionOnFailure <;> rfl

/-- C4 as amended (failure policy): whenever the Global Limit Client's call
for the request's global rule ends in a timeout, connection failure or
malformed response, its verdict is ERROR and is resolved to ADMIT when the
rule's action-on-failure is allow and to DENY when it is deny; the request's
outcome is then DENY under deny, and under allow it is ADMIT exactly when the
request's local rule does not deny it.  A rate-check call always resolves to
ADMIT or DENY, never to ERROR. -/
theorem failure_policy (policy : Policy) (svc : CounterService) (timeout : Nat)
    (e : LocalEngine) (now : ℚ) (req : Request) :
    ((rateCheck policy svc timeout e now req).1.kind = VerdictKind.ADMIT ∨
      (rateCheck policy svc timeout e now req).1.kind = VerdictKind.DENY) ∧
    ∀ c ∈ matcher policy req, c.strategy = Strategy.globalStrategy →
      ∀ f, callService svc [c.descriptor] timeout = CallResult.failure f →
        (globalCheck svc [c.descriptor] timeout).kind = VerdictKind.ERROR ∧
        (c.rule.actionOnFailure = FailureAction.allow →
          (applyFailurePolicy c.rule.actionOnFailure
            (globalCheck svc [c.descriptor] timeout)).kind = VerdictKind.ADMIT ∧
          ((rateCheck policy svc timeout e now req).1.kind = VerdictKind.ADMIT ↔
            ∀ c2 ∈ matcher policy req, c2.strategy = Strategy.localStrategy →
              (e.check c2.descriptor c2.rule.limit now).1.kind ≠ VerdictKind.DENY)) ∧
        (c.rule.actionOnFailure = FailureAction.deny →
          (applyFailurePolicy c.rule.actionOnFailure
            (globalCheck svc [c.descriptor] timeout)).kind = VerdictKind.DENY ∧
          (rateCheck policy svc timeout e now req).1.kind = VerdictKind.DENY) := by
  refine ⟨rateCheck_definite policy svc timeout e now req, ?_⟩
  intro c hc hg f hf
  have hev := evalCandidate_global_failure svc timeout now e c f hg hf
  have hdeny := rateCheck_deny_iff policy svc timeout e now req
  refine ⟨by simp [globalCheck, hf, verdictOfCall], ?_, ?_⟩
  · intro ha
    refine ⟨by simp [globalCheck, hf, verdictOfCall, applyFailurePolicy, ha], ?_⟩
    rw [ha] at hev
    constructor
    · intro hadm c2 hc2 hl hd
      have : (rateCheck policy svc timeout e now req).1.kind = VerdictKind.DENY := by
        rw [hdeny]
        refine ⟨c2, hc2, ?_⟩
        unfold evalCandidate
        simp only [hl]
        exact hd
      rw [hadm] at this
      cases this
    · intro hno
      rcases rateCheck_definite policy svc timeout e now req with h | h
      · exact h
      · exfalso
        obtain ⟨c2, hc2, hd⟩ := hdeny.mp h
        by_cases hl : c2.strategy = Strategy.localStrategy
        · apply hno c2 hc2 hl
          unfold evalCandidate at hd
          simp only [hl] at hd
          exact hd
        · have hg2 := Strategy.eq_global_of_ne_local _ hl
          have hcc : c2 = c :=
            eq_of_countP_le_one (fun c => decide (c.strategy = Strategy.globalStrategy))
              (matcher policy req) (matcher_count_global policy req) c2 c hc2 hc
              (by simp [hg2]) (by simp [hg])
          rw [hcc, hev] at hd
          cases hd
  · intro hd
    refine ⟨by simp [globalCheck, hf, verdictOfCall, applyFailurePolicy, hd], ?_⟩
    rw [hd] at hev
    rw [hdeny]
    exact ⟨c, hc, hev⟩

/-- Counterexample to C4 as stated: the global rule is fail-open and every
call to the Shared Counter Service times out (1000 ms against a timeout of
100 ms), yet the second of two requests issued at the same instant is
denied, by the local rule. -/
theorem failure_allow_still_denied :
    openGlobalRule.actionOnFailure = FailureAction.allow ∧
    (matcher mixedPolicy apiRequest).map (fun c => c.rule) = [oneLocalRule, openGlobalRule] ∧
    callService slowService [[("route", "api")]] 100 = CallResult.failure Failure.timeout ∧
    (rateCheck mixedPolicy slowService 100 emptyEngine 0 apiRequest).1.kind
      = VerdictKind.ADMIT ∧
    (rateCheck mixedPolicy slowService 100
      (rateCheck mixedPolicy slowService 100 emptyEngine 0 apiRequest).2 0 apiRequest).1.kind
      = VerdictKind.DENY := by
  decide!

/-- Witness for C4 as amended: a fail-closed global rule whose call times
out denies the request. -/
theorem failure_policy_witness :
    (rateCheck closedPolicy slowService 100 emptyEngine 0 apiRequest).1.kind
      = VerdictKind.DENY :=
  ((failure_policy closedPolicy slowService 100 emptyEngine 0 apiRequest).2
    closedCandidate (by decide) rfl Failure.timeout (by decide)).2.2 rfl |>.2

end RateLimit
